import Mathlib

/-!
Verification development for the distributed quotation system
(quote service, sharded persistence, pub/sub broker, scatter-gather aggregator).

The Python sources are shallowly embedded:
* Python dicts `{symbol: price}` become association lists `List (String × ℚ)`
  with first-match lookup (Python dicts never hold duplicate keys, so theorems
  that rely on dict equality carry a `Nodup` hypothesis on the key list).
* Python floats become `ℚ`.
* The tenacity-decorated `fetch_quote_from_external_service` becomes a function
  over the sequence of upstream attempt outcomes (success / transport error /
  non-2xx HTTP error / malformed payload), threading the `last_known_quote`
  cache explicitly; a raised exception is `Except.error`.
* One iteration of the `background_quote_updater` loop body becomes a function
  returning either `Except.error` (an exception escaped the loop body) or the
  list of broker/storage events the cycle performed plus the new cache.
* The SQL query `SELECT ... WHERE coin = :coin ORDER BY timestamp DESC LIMIT k`
  over the insertion-ordered `quote_logs` table is modelled as a stable
  descending sort on the timestamp followed by `take k` (ties keep insertion
  order, matching the append-only serial table).
-/

set_option autoImplicit false

namespace SistemaCotacao

/-! ## Python dict model -/

/-- A Python dict `{symbol: price}` as an association list (first match wins). -/
abbrev QuoteDict := List (String × ℚ)

/-- Lookup of a key in a dict, `d.get(k)` / `d[k]`. -/
def dictLookup : QuoteDict → String → Option ℚ
  | [], _ => none
  | (k2, v) :: rest, k => if k2 = k then some v else dictLookup rest k

/-- Python `d.get(k, default)`. -/
def dictGetD (d : QuoteDict) (k : String) (default : ℚ) : ℚ :=
  (dictLookup d k).getD default

/-- Python `k in d`. -/
def dictContains (d : QuoteDict) (k : String) : Bool :=
  (dictLookup d k).isSome

/-- Python dict equality `d1 == d2`: same keys, same value at each key. -/
def dictEq (d1 d2 : QuoteDict) : Bool :=
  d1.all (fun kv => dictLookup d2 kv.1 = some kv.2) &&
  d2.all (fun kv => dictLookup d1 kv.1 = some kv.2)

/-- Python `all(v == 0 for v in d.values())`. -/
def allValuesZero (d : QuoteDict) : Bool :=
  d.all (fun kv => kv.2 = 0)

/-- The seeded cache: `last_known_quote = {"bitcoin": 0.0, "ethereum": 0.0}`. -/
def last_known_quote_init : QuoteDict := [("bitcoin", 0), ("ethereum", 0)]

/-- Python `s.lower()` (ASCII case folding, which covers every symbol this
system handles). -/
def str_lower (s : String) : String := String.mk (s.data.map Char.toLower)

/-! ## QuoteFetcher (tenacity-decorated fetch with cache fallback) -/

/-- Outcome of one upstream attempt of `GET /quote`. -/
inductive FetchOutcome
  | success (q : QuoteDict)
  | transportError
  | httpError
  | malformedPayload
deriving DecidableEq

/-- One attempt is retried by tenacity exactly when it raised
`httpx.RequestError` or `httpx.HTTPStatusError`. -/
def retryable : FetchOutcome → Bool
  | .transportError => true
  | .httpError => true
  | _ => false

/-- The attempt loop of the tenacity decorator (`stop_after_attempt(3)` means
the remaining-attempt fuel starts at 3).  `i` is the index of the next attempt
in the outcome sequence.  On success the global cache is replaced by the fresh
quote and the fresh quote is returned; a malformed payload is not retried and
propagates; once the fuel is exhausted `retry_error_callback` returns the
(unmodified) cache. -/
def fetch_go (outcomes : Nat → FetchOutcome) (cache : QuoteDict) :
    Nat → Nat → Except Unit (QuoteDict × QuoteDict)
  | _, 0 => .ok (cache, cache)
  | i, fuel + 1 =>
    match outcomes i with
    | .success q => .ok (q, q)
    | .malformedPayload => .error ()
    | .transportError => fetch_go outcomes cache (i + 1) fuel
    | .httpError => fetch_go outcomes cache (i + 1) fuel

/-- `fetch_quote_from_external_service`: up to 3 attempts, returning
`(returned quote, cache after the call)`, or `Except.error` when an
unretried exception propagates to the caller. -/
def fetch_quote_from_external_service (outcomes : Nat → FetchOutcome)
    (cache : QuoteDict) : Except Unit (QuoteDict × QuoteDict) :=
  fetch_go outcomes cache 0 3

/-! ## store_log and one cycle of background_quote_updater -/

/-- The two database shards. -/
inductive Shard
  | shard1
  | shard2
deriving DecidableEq

/-- Observable effects of one refresh cycle. -/
inductive Event
  | publishOk (q : QuoteDict)
  | insertOk (s : Shard) (coin : String) (price : ℚ)
  | insertFailed (s : Shard) (coin : String) (price : ℚ)
deriving DecidableEq

/-- Which injected faults are active during a cycle. -/
structure CycleFailures where
  publishFails : Bool
  shard1InsertFails : Bool
  shard2InsertFails : Bool
deriving DecidableEq

/-- The `if coin == "bitcoin" ... elif coin == "ethereum" ... else return`
branching inside `store_log`. -/
def store_log_shard (coin : String) : Option Shard :=
  if coin = "bitcoin" then some .shard1
  else if coin = "ethereum" then some .shard2
  else none

/-- Whether the injected fault makes the insert on shard `s` raise. -/
def shardInsertFails (f : CycleFailures) : Shard → Bool
  | .shard1 => f.shard1InsertFails
  | .shard2 => f.shard2InsertFails

/-- `store_log(coin, price)`: unknown coins return without storing anything;
the INSERT is wrapped in try/except, so a storage failure is swallowed and
recorded only as a failed-insert event.  The function never raises. -/
def store_log (coin : String) (price : ℚ) (f : CycleFailures) : List Event :=
  match store_log_shard coin with
  | none => []
  | some s =>
    if shardInsertFails f s then [.insertFailed s coin price]
    else [.insertOk s coin price]

/-- The guard `if not quote or quote == last_known_quote and
all(v == 0 for v in last_known_quote.values()): continue`. -/
def skip_condition (quote cache : QuoteDict) : Bool :=
  quote.isEmpty || (dictEq quote cache && allValuesZero cache)

/-- One iteration of the `while True` body of `background_quote_updater`:
fetch (the cache is threaded through), test the skip guard, publish on the
broker (not wrapped in try/except: a publish failure raises out of the body),
then `store_log` for the fixed symbols `"bitcoin"` and `"ethereum"` with
`quote.get(sym, 0.0)`.  Returns the events of the cycle and the new cache, or
`Except.error` when an exception escapes the loop body. -/
def background_quote_updater_cycle (outcomes : Nat → FetchOutcome)
    (cache : QuoteDict) (f : CycleFailures) :
    Except Unit (List Event × QuoteDict) :=
  match fetch_quote_from_external_service outcomes cache with
  | .error e => .error e
  | .ok (quote, cache') =>
    if skip_condition quote cache' then .ok ([], cache')
    else if f.publishFails then .error ()
    else
      let evs1 := store_log "bitcoin" (dictGetD quote "bitcoin" 0) f
      let evs2 := store_log "ethereum" (dictGetD quote "ethereum" 0) f
      .ok (.publishOk quote :: (evs1 ++ evs2), cache')

/-- The insert events (successful or failed) of a cycle that target `coin`. -/
def insertEventsFor (evs : List Event) (coin : String) : List Event :=
  evs.filter fun e =>
    match e with
    | .insertOk _ c _ => c == coin
    | .insertFailed _ c _ => c == coin
    | _ => false

/-! ## PersistenceStore queries -/

/-- A row of the `quote_logs` table. -/
structure LogEntry where
  coin : String
  price : ℚ
  ts : Nat
deriving DecidableEq

/-- Stable insertion of a row in front of the first row whose timestamp is
not larger (so equal timestamps keep insertion order). -/
def insert_desc (x : LogEntry) : List LogEntry → List LogEntry
  | [] => [x]
  | y :: ys => if x.ts < y.ts then y :: insert_desc x ys else x :: y :: ys

/-- `ORDER BY timestamp DESC` over the insertion-ordered table, as a stable
descending insertion sort. -/
def order_by_timestamp_desc : List LogEntry → List LogEntry
  | [] => []
  | x :: xs => insert_desc x (order_by_timestamp_desc xs)

/-- `SELECT ... WHERE coin = :coin ORDER BY timestamp DESC LIMIT :limit`. -/
def quote_logs_query (rows : List LogEntry) (coin : String) (limit : Nat) :
    List LogEntry :=
  (order_by_timestamp_desc (rows.filter fun e => e.coin = coin)).take limit

/-- Response body of `GET /media_ultimos_10_logs/{coin}`. -/
structure AvgResponse where
  coin : String
  average_price : ℚ
  log_count : Nat
deriving DecidableEq

/-- The query-and-average part of `get_average_last_10` on the routed shard:
empty result gives `(0, 0)`, otherwise `sum / len` over the fetched prices. -/
def average_response (db : List LogEntry) (coin : String) :
    Except Nat AvgResponse :=
  let results := (quote_logs_query db (str_lower coin) 10).map LogEntry.price
  if results.isEmpty then .ok ⟨coin, 0, 0⟩
  else .ok ⟨coin, results.sum / (results.length : ℚ), results.length⟩

/-- `GET /media_ultimos_10_logs/{coin}`: route on the lowercased symbol,
404 for symbols without a shard. -/
def get_average_last_10 (shard1_db shard2_db : List LogEntry) (coin : String) :
    Except Nat AvgResponse :=
  if str_lower coin = "bitcoin" then average_response shard1_db coin
  else if str_lower coin = "ethereum" then average_response shard2_db coin
  else .error 404

/-- Response body of `GET /cotacao_atual/{coin}`. -/
structure QuoteResponse where
  coin : String
  price : ℚ
deriving DecidableEq

/-- `GET /cotacao_atual/{coin}`: membership test and lookup use the lowercased
symbol, the response echoes the symbol as the caller wrote it. -/
def get_current_quote (last_known : QuoteDict) (coin : String) :
    Except Nat QuoteResponse :=
  match dictLookup last_known (str_lower coin) with
  | none => .error 404
  | some p => .ok ⟨coin, p⟩

/-! ## Aggregator (scatter-gather) -/

/-- JSON values, enough for the payloads the aggregator handles. -/
inductive Json
  | num (q : ℚ)
  | str (s : String)
  | arr (xs : List Json)
  | obj (fields : List (String × Json))

/-- First-match lookup in a JSON object field list. -/
def jsonFieldsLookup : List (String × Json) → String → Option Json
  | [], _ => none
  | (k2, v) :: rest, k => if k2 = k then some v else jsonFieldsLookup rest k

/-- Lookup in a JSON object (`dict.get`); `none` on non-objects. -/
def jsonObjLookup : Json → String → Option Json
  | .obj kvs, k => jsonFieldsLookup kvs k
  | _, _ => none

/-- Outcome of one call to `GET /media_ultimos_10_logs/{coin}` made by
`fetch_current_average_price`. -/
inductive AvgCallOutcome
  | ok (v : Json)
  | transportError
  | httpError
  | malformedBody

/-- Outcome of one shard query made by `fetch_last_logs_from_shard`. -/
inductive LogCallOutcome
  | querySucceeds
  | dbError

/-- The error payload `{"error": f"Não foi possível obter a média para {coin}"}`. -/
def avg_error_payload (coin : String) : Json :=
  .obj [("error", .str ("Não foi possível obter a média para " ++ coin))]

/-- The error payload `[{"error": f"Não foi possível obter logs para {coin}"}]`. -/
def logs_error_payload (coin : String) : Json :=
  .arr [.obj [("error", .str ("Não foi possível obter logs para " ++ coin))]]

/-- A fetched row rendered for the JSON report
(`{"coin": ..., "price": ..., "timestamp": row.isoformat()}`). -/
def log_entry_to_json (e : LogEntry) : Json :=
  .obj [("coin", .str e.coin), ("price", .num e.price),
        ("timestamp", .str (toString e.ts))]

/-- `fetch_current_average_price`: only `httpx.RequestError` is caught and
turned into the error payload; a non-2xx status (`raise_for_status` raises
`httpx.HTTPStatusError`, not a `RequestError`) or a malformed body escapes the
function and is captured by `asyncio.gather(..., return_exceptions=True)`,
which the `Except.error` case models. -/
def fetch_current_average_price (coin : String) :
    AvgCallOutcome → Except Unit Json
  | .ok v => .ok v
  | .transportError => .ok (avg_error_payload coin)
  | .httpError => .error ()
  | .malformedBody => .error ()

/-- `fetch_last_logs_from_shard`: the whole body is wrapped in
`try/except Exception`, so the call never raises — a database failure becomes
the error-payload list. -/
def fetch_last_logs_from_shard (rows : List LogEntry) (coin : String)
    (limit : Nat) : LogCallOutcome → Except Unit Json
  | .querySucceeds => .ok (.arr ((quote_logs_query rows coin limit).map log_entry_to_json))
  | .dbError => .ok (logs_error_payload coin)

/-- The message `result.get("average_price", ...)` falls back to. -/
def missing_key_message : String := "Chave \x27average_price\x27 não encontrada"

/-- The `get_avg` helper inside `get_full_report`: exceptions and non-dict
results become `"Erro"`, dict results are read with a fallback message. -/
def get_avg (result : Except Unit Json) : Json :=
  match result with
  | .error _ => .str "Erro"
  | .ok (.obj kvs) => (jsonObjLookup (.obj kvs) "average_price").getD (.str missing_key_message)
  | .ok _ => .str "Erro"

/-- The log-slice merge `logs if not isinstance(logs, Exception) else "Erro"`. -/
def logs_field (result : Except Unit Json) : Json :=
  match result with
  | .error _ => .str "Erro"
  | .ok v => v

/-- The aggregated response of `GET /report/full` (the four leaves of
`media_precos` and `ultimos_logs`). -/
structure FullReport where
  media_precos_bitcoin : Json
  media_precos_ethereum : Json
  ultimos_logs_bitcoin : Json
  ultimos_logs_ethereum : Json

/-- `get_full_report`: scatter the four sub-calls (average for bitcoin and
ethereum, last-5 logs from each shard), gather capturing exceptions, then
merge field by field. -/
def get_full_report (shard1_db shard2_db : List LogEntry)
    (o1 o2 : AvgCallOutcome) (o3 o4 : LogCallOutcome) : FullReport :=
  let avg_btc := fetch_current_average_price "bitcoin" o1
  let avg_eth := fetch_current_average_price "ethereum" o2
  let logs_btc := fetch_last_logs_from_shard shard1_db "bitcoin" 5 o3
  let logs_eth := fetch_last_logs_from_shard shard2_db "ethereum" 5 o4
  { media_precos_bitcoin := get_avg avg_btc
    media_precos_ethereum := get_avg avg_eth
    ultimos_logs_bitcoin := logs_field logs_btc
    ultimos_logs_ethereum := logs_field logs_eth }

/-- A price-summary report field that marks a failure: either the gather-side
`"Erro"` or the missing-key fallback message. -/
def IsAvgMarker (v : Json) : Prop :=
  v = .str "Erro" ∨ v = .str missing_key_message

/-- A log-slice report field that marks a failure: either the gather-side
`"Erro"` or the in-call error payload. -/
def IsLogsMarker (coin : String) (v : Json) : Prop :=
  v = .str "Erro" ∨ v = logs_error_payload coin

/-- Per-field contract of a price-summary field: a successful sub-call yields
exactly the numeric `average_price` of its payload (and no marker), any
failure yields a marker. -/
def AvgFieldCorrect (o : AvgCallOutcome) (field : Json) : Prop :=
  match o with
  | .ok v => (∃ q, jsonObjLookup v "average_price" = some (.num q) ∧ field = .num q) ∧
      ¬ IsAvgMarker field
  | _ => IsAvgMarker field

/-- Per-field contract of a log-slice field: a successful query yields exactly
the rendered query result (and no marker), a database failure yields a marker. -/
def LogFieldCorrect (o : LogCallOutcome) (rows : List LogEntry) (coin : String)
    (field : Json) : Prop :=
  match o with
  | .querySucceeds => field = .arr ((quote_logs_query rows coin 5).map log_entry_to_json) ∧
      ¬ IsLogsMarker coin field
  | .dbError => IsLogsMarker coin field

/-! ## Helper lemmas -/

theorem fetch_go_ok_eq (outcomes : Nat → FetchOutcome) (cache : QuoteDict) :
    ∀ (fuel i : Nat) (q c' : QuoteDict),
      fetch_go outcomes cache i fuel = .ok (q, c') → c' = q := by
  intro fuel
  induction fuel with
  | zero =>
    intro i q c' h
    simp only [fetch_go, Except.ok.injEq, Prod.mk.injEq] at h
    exact h.2.symm.trans h.1
  | succ fuel ih =>
    intro i q c' h
    simp only [fetch_go] at h
    cases ho : outcomes i <;> simp only [ho] at h
    case success q2 =>
      simp only [Except.ok.injEq, Prod.mk.injEq] at h
      exact h.2.symm.trans h.1
    case transportError => exact ih _ _ _ h
    case httpError => exact ih _ _ _ h
    case malformedPayload => exact Except.noConfusion h

theorem dictLookup_self {d : QuoteDict} (hnd : (d.map Prod.fst).Nodup) :
    ∀ kv ∈ d, dictLookup d kv.1 = some kv.2 := by
  induction d with
  | nil => intro kv h; simp at h
  | cons hd tl ih =>
    intro kv hm
    simp only [List.map_cons, List.nodup_cons] at hnd
    rcases List.mem_cons.mp hm with rfl | hm2
    · obtain ⟨k, v⟩ := kv
      simp [dictLookup]
    · have hk : hd.1 ≠ kv.1 := by
        intro he
        exact hnd.1 (he ▸ List.mem_map_of_mem Prod.fst hm2)
      obtain ⟨k, v⟩ := hd
      simp only [dictLookup, if_neg hk]
      exact ih hnd.2 kv hm2

theorem dictEq_refl {d : QuoteDict} (hnd : (d.map Prod.fst).Nodup) :
    dictEq d d = true := by
  simp only [dictEq, Bool.and_eq_true, List.all_eq_true, decide_eq_true_eq]
  exact ⟨dictLookup_self hnd, dictLookup_self hnd⟩

theorem cycle_of_fetch_ok (outcomes : Nat → FetchOutcome) (cache : QuoteDict)
    (f : CycleFailures) (q c' : QuoteDict)
    (hf : fetch_quote_from_external_service outcomes cache = .ok (q, c')) :
    background_quote_updater_cycle outcomes cache f =
      (if skip_condition q c' then .ok ([], c')
       else if f.publishFails then .error ()
       else .ok (.publishOk q ::
         (store_log "bitcoin" (dictGetD q "bitcoin" 0) f ++
          store_log "ethereum" (dictGetD q "ethereum" 0) f), c')) := by
  unfold background_quote_updater_cycle
  rw [hf]

/-! ## Claims about the circuit breaker and the refresh loop -/

/-- Claim C1: when all (at most 3) upstream attempts fail with a transport
error or a non-2xx HTTP status, `fetch_quote_from_external_service` returns,
without raising, a value equal to the pre-call `last_known_quote`, and the
cache is unchanged by the call. -/
theorem fetch_exhausted_returns_cache (outcomes : Nat → FetchOutcome)
    (cache : QuoteDict)
    (h : ∀ i, i < 3 → outcomes i = .transportError ∨ outcomes i = .httpError) :
    fetch_quote_from_external_service outcomes cache = .ok (cache, cache) := by
  have h0 := h 0 (by omega)
  have h1 := h 1 (by omega)
  have h2 := h 2 (by omega)
  unfold fetch_quote_from_external_service
  rcases h0 with h0 | h0 <;> rcases h1 with h1 | h1 <;> rcases h2 with h2 | h2 <;>
    simp [fetch_go, h0, h1, h2]

/-- Witness for C1: three transport failures starting from the seeded cache. -/
theorem fetch_exhausted_returns_cache_witness :
    fetch_quote_from_external_service (fun _ => .transportError)
      last_known_quote_init = .ok (last_known_quote_init, last_known_quote_init) :=
  fetch_exhausted_returns_cache (fun _ => .transportError) last_known_quote_init
    (fun _ _ => Or.inl rfl)

/-- Claim C9: a successful upstream fetch of quote `q` (after `k < 3` retried
failures) replaces `last_known_quote` by exactly `q`, with no transformation,
and returns `q`. -/
theorem fetch_success_replaces_cache (outcomes : Nat → FetchOutcome)
    (cache : QuoteDict) (k : Nat) (q : QuoteDict) (hk : k < 3)
    (hprev : ∀ j, j < k → outcomes j = .transportError ∨ outcomes j = .httpError)
    (hs : outcomes k = .success q) :
    fetch_quote_from_external_service outcomes cache = .ok (q, q) := by
  unfold fetch_quote_from_external_service
  interval_cases k
  · simp [fetch_go, hs]
  · have h0 := hprev 0 (by omega)
    rcases h0 with h0 | h0 <;> simp [fetch_go, h0, hs]
  · have h0 := hprev 0 (by omega)
    have h1 := hprev 1 (by omega)
    rcases h0 with h0 | h0 <;> rcases h1 with h1 | h1 <;> simp [fetch_go, h0, h1, hs]

/-- Witness for C9: one transport failure, then a successful attempt. -/
theorem fetch_success_replaces_cache_witness :
    fetch_quote_from_external_service
      (fun i => if i = 0 then .transportError else .success [("bitcoin", 42)])
      last_known_quote_init = .ok ([("bitcoin", 42)], [("bitcoin", 42)]) :=
  fetch_success_replaces_cache _ _ 1 _ (by omega)
    (fun j hj => by
      have hj0 : j = 0 := by omega
      subst hj0
      exact Or.inl rfl)
    rfl

/-- Claim C3 counterexample: with a successful fetch and a failing broker
publish, the publish exception (`redis_pool.publish` is not wrapped in any
try/except) propagates out of the loop body — so, contrary to the claim, not
every failure arising within a cycle is recovered locally. -/
theorem publish_failure_escapes_loop :
    background_quote_updater_cycle
      (fun _ => .success [("bitcoin", 50000), ("ethereum", 3000)])
      last_known_quote_init ⟨true, false, false⟩ = .error () := rfl

/-- Claim C3 (amended): when the fetch completes without raising (success, or
the retry-exhaustion fallback — which absorbs transport and HTTP failures) and
the broker publish does not fail, the loop body finishes normally whatever
storage inserts fail: insert failures are swallowed inside `store_log` and
never escape the cycle.  (A malformed fetch payload or a publish failure, by
contrast, does escape, as the counterexample shows.) -/
theorem loop_survives_insert_failures (outcomes : Nat → FetchOutcome)
    (cache : QuoteDict) (f : CycleFailures) (q c' : QuoteDict)
    (hf : fetch_quote_from_external_service outcomes cache = .ok (q, c'))
    (hp : f.publishFails = false) :
    ∃ evs c2, background_quote_updater_cycle outcomes cache f = .ok (evs, c2) := by
  rw [cycle_of_fetch_ok outcomes cache f q c' hf]
  by_cases hs : skip_condition q c' = true
  · rw [if_pos hs]
    exact ⟨[], c', rfl⟩
  · rw [if_neg hs]
    simp only [hp, Bool.false_eq_true, if_false]
    exact ⟨_, c', rfl⟩

/-- Witness for amended C3: both inserts fail, the cycle still completes. -/
theorem loop_survives_insert_failures_witness :
    ∃ evs c2, background_quote_updater_cycle
      (fun _ => .success [("bitcoin", 50000), ("ethereum", 3000)])
      last_known_quote_init ⟨false, true, true⟩ = .ok (evs, c2) :=
  loop_survives_insert_failures _ _ _
    [("bitcoin", 50000), ("ethereum", 3000)]
    [("bitcoin", 50000), ("ethereum", 3000)] rfl rfl

/-- Claim C5 counterexample: a successful fetch of `{"doge": 0.0}` — a
non-empty quote that is not equal to the seeded
`{"bitcoin": 0.0, "ethereum": 0.0}` state — is still skipped, because the code
only tests that every value of the cache is zero, not equality with the seed
dict. -/
theorem skip_despite_differing_from_seed :
    background_quote_updater_cycle (fun _ => .success [("doge", 0)])
      last_known_quote_init ⟨false, false, false⟩ = .ok ([], [("doge", 0)]) ∧
    ([("doge", (0 : ℚ))] : QuoteDict).isEmpty = false ∧
    dictEq [("doge", 0)] last_known_quote_init = false :=
  ⟨rfl, rfl, rfl⟩

/-- Claim C5 (amended): a completed fetch always returns the post-call cache
itself, and the cycle skips both publish and persist exactly when that result
is empty or every one of its values is zero (the code checks the zero values
of the cache, not equality with the seeded initial dict).  The
upstream-fails-all-3-attempts scenario from the seeded zero cache is the
witness below. -/
theorem skip_iff_empty_or_all_zero (outcomes : Nat → FetchOutcome)
    (cache : QuoteDict) (f : CycleFailures) (q c' : QuoteDict)
    (hf : fetch_quote_from_external_service outcomes cache = .ok (q, c'))
    (hnd : (q.map Prod.fst).Nodup) :
    background_quote_updater_cycle outcomes cache f = .ok ([], c') ↔
      (q.isEmpty = true ∨ allValuesZero q = true) := by
  have hcq : c' = q := fetch_go_ok_eq _ _ _ _ _ _ hf
  subst hcq
  have hd : dictEq c' c' = true := dictEq_refl hnd
  rw [cycle_of_fetch_ok outcomes cache f c' c' hf]
  constructor
  · intro h
    by_contra hcon
    push_neg at hcon
    obtain ⟨he, hz⟩ := hcon
    have he' : c'.isEmpty = false := by simpa using he
    have hz' : allValuesZero c' = false := by simpa using hz
    have hsk : skip_condition c' c' = false := by
      simp [skip_condition, he', hz']
    rw [hsk] at h
    simp only [Bool.false_eq_true, if_false] at h
    by_cases hp : f.publishFails = true
    · rw [if_pos hp] at h
      exact Except.noConfusion h
    · rw [if_neg hp] at h
      simp at h
  · intro h
    have hsk : skip_condition c' c' = true := by
      rcases h with h | h
      · simp [skip_condition, h]
      · simp [skip_condition, h, hd]
    rw [hsk]
    simp

/-- Witness for amended C5: the upstream fails all 3 attempts starting from the
seeded zero-state cache; the fetch returns that zero state and the cycle
publishes and persists nothing. -/
theorem skip_iff_empty_or_all_zero_witness :
    background_quote_updater_cycle (fun _ => .transportError)
      last_known_quote_init ⟨false, false, false⟩ =
      .ok ([], last_known_quote_init) :=
  (skip_iff_empty_or_all_zero (fun _ => .transportError) last_known_quote_init
    ⟨false, false, false⟩ last_known_quote_init last_known_quote_init rfl
    (by decide)).mpr (Or.inr rfl)

/-- Claim C6 counterexample: a non-skipped cycle whose quote holds only
`"doge"` publishes the quote but then inserts rows for the fixed symbols
`"bitcoin"` and `"ethereum"` with the defaulted price 0.0 and no row at all
for `"doge"` — the inserts are not one-per-symbol-present-in-the-quote. -/
theorem cycle_inserts_fixed_symbols :
    background_quote_updater_cycle (fun _ => .success [("doge", 7)])
      last_known_quote_init ⟨false, false, false⟩ =
      .ok ([.publishOk [("doge", 7)], .insertOk .shard1 "bitcoin" 0,
            .insertOk .shard2 "ethereum" 0], [("doge", 7)]) := rfl

/-- Claim C6 (amended): every non-skipped cycle whose publish succeeds first
publishes the fetched quote and then attempts exactly one insert for
`"bitcoin"` into shard 1 and exactly one insert for `"ethereum"` into shard 2
— always those two fixed symbols, with `quote.get(sym, 0.0)` as the price,
rather than the symbols present in the quote — and each insert fails exactly
when its own shard fails, independently of the other insert. -/
theorem cycle_publish_then_two_inserts (outcomes : Nat → FetchOutcome)
    (cache : QuoteDict) (f : CycleFailures) (q c' : QuoteDict)
    (hf : fetch_quote_from_external_service outcomes cache = .ok (q, c'))
    (hskip : skip_condition q c' = false) (hp : f.publishFails = false) :
    ∃ evs, background_quote_updater_cycle outcomes cache f = .ok (evs, c') ∧
      evs.head? = some (.publishOk q) ∧
      insertEventsFor evs "bitcoin" =
        [if f.shard1InsertFails then
            .insertFailed .shard1 "bitcoin" (dictGetD q "bitcoin" 0)
          else .insertOk .shard1 "bitcoin" (dictGetD q "bitcoin" 0)] ∧
      insertEventsFor evs "ethereum" =
        [if f.shard2InsertFails then
            .insertFailed .shard2 "ethereum" (dictGetD q "ethereum" 0)
          else .insertOk .shard2 "ethereum" (dictGetD q "ethereum" 0)] := by
  obtain ⟨fp, f1, f2⟩ := f
  have hp' : fp = false := hp
  subst hp'
  refine ⟨Event.publishOk q ::
      (store_log "bitcoin" (dictGetD q "bitcoin" 0) ⟨false, f1, f2⟩ ++
        store_log "ethereum" (dictGetD q "ethereum" 0) ⟨false, f1, f2⟩),
    ?_, rfl, ?_, ?_⟩
  · rw [cycle_of_fetch_ok outcomes cache ⟨false, f1, f2⟩ q c' hf, hskip]
    simp
  · cases f1 <;> cases f2 <;> rfl
  · cases f1 <;> cases f2 <;> rfl

/-- Witness for amended C6: shard 1 failing does not stop the ethereum insert. -/
theorem cycle_publish_then_two_inserts_witness :
    ∃ evs, background_quote_updater_cycle
      (fun _ => .success [("bitcoin", 50000), ("ethereum", 3000)])
      last_known_quote_init ⟨false, true, false⟩ =
      .ok (evs, [("bitcoin", 50000), ("ethereum", 3000)]) ∧
      evs.head? = some (.publishOk [("bitcoin", 50000), ("ethereum", 3000)]) ∧
      insertEventsFor evs "bitcoin" = [.insertFailed .shard1 "bitcoin" 50000] ∧
      insertEventsFor evs "ethereum" = [.insertOk .shard2 "ethereum" 3000] :=
  cycle_publish_then_two_inserts _ _ _
    [("bitcoin", 50000), ("ethereum", 3000)]
    [("bitcoin", 50000), ("ethereum", 3000)] rfl rfl rfl

/-! ## Lemmas about the stable descending sort -/

theorem insert_desc_perm (x : LogEntry) (l : List LogEntry) :
    (insert_desc x l).Perm (x :: l) := by
  induction l with
  | nil => exact List.Perm.refl _
  | cons y ys ih =>
    unfold insert_desc
    by_cases hc : x.ts < y.ts
    · rw [if_pos hc]
      exact (ih.cons y).trans (List.Perm.swap x y ys)
    · rw [if_neg hc]

theorem order_by_timestamp_desc_perm (l : List LogEntry) :
    (order_by_timestamp_desc l).Perm l := by
  induction l with
  | nil => exact List.Perm.refl _
  | cons x xs ih =>
    unfold order_by_timestamp_desc
    exact (insert_desc_perm x _).trans (ih.cons x)

theorem insert_desc_pairwise (x : LogEntry) (l : List LogEntry)
    (h : List.Pairwise (fun a b => b.ts ≤ a.ts) l) :
    List.Pairwise (fun a b => b.ts ≤ a.ts) (insert_desc x l) := by
  induction l with
  | nil => simp [insert_desc]
  | cons y ys ih =>
    rw [List.pairwise_cons] at h
    obtain ⟨hy, hys⟩ := h
    unfold insert_desc
    by_cases hc : x.ts < y.ts
    · rw [if_pos hc]
      rw [List.pairwise_cons]
      refine ⟨?_, ih hys⟩
      intro z hz
      have hz2 : z = x ∨ z ∈ ys := by
        have hz3 := (insert_desc_perm x ys).mem_iff.mp hz
        simpa using hz3
      rcases hz2 with rfl | hz2
      · omega
      · exact hy z hz2
    · rw [if_neg hc]
      push_neg at hc
      rw [List.pairwise_cons]
      refine ⟨?_, List.pairwise_cons.mpr ⟨hy, hys⟩⟩
      intro z hz
      rcases List.mem_cons.mp hz with rfl | hz2
      · exact hc
      · exact le_trans (hy z hz2) hc

theorem order_by_timestamp_desc_pairwise (l : List LogEntry) :
    List.Pairwise (fun a b => b.ts ≤ a.ts) (order_by_timestamp_desc l) := by
  induction l with
  | nil => simp [order_by_timestamp_desc]
  | cons x xs ih => exact insert_desc_pairwise x _ ih

theorem insert_desc_filter_ts (x : LogEntry) (l : List LogEntry) (t : Nat) :
    (insert_desc x l).filter (fun e => e.ts = t) =
      if x.ts = t then x :: l.filter (fun e => e.ts = t)
      else l.filter (fun e => e.ts = t) := by
  induction l with
  | nil => by_cases h : x.ts = t <;> simp [insert_desc, h]
  | cons y ys ih =>
    unfold insert_desc
    by_cases hc : x.ts < y.ts
    · rw [if_pos hc]
      by_cases hy : y.ts = t
      · have hx : x.ts ≠ t := by omega
        simp [List.filter_cons, hy, ih, hx]
      · by_cases hx : x.ts = t <;> simp [List.filter_cons, hy, ih, hx]
    · rw [if_neg hc]
      by_cases hx : x.ts = t <;> simp [List.filter_cons, hx]

theorem order_by_timestamp_desc_filter_ts (l : List LogEntry) (t : Nat) :
    (order_by_timestamp_desc l).filter (fun e => e.ts = t) =
      l.filter (fun e => e.ts = t) := by
  induction l with
  | nil => rfl
  | cons x xs ih =>
    unfold order_by_timestamp_desc
    rw [insert_desc_filter_ts]
    by_cases hx : x.ts = t <;> simp [List.filter_cons, hx, ih]

theorem filter_take_exists {α : Type} (p : α → Bool) :
    ∀ (l : List α) (k : Nat), ∃ m, (l.take k).filter p = (l.filter p).take m := by
  intro l
  induction l with
  | nil => intro k; exact ⟨0, by simp⟩
  | cons a l ih =>
    intro k
    cases k with
    | zero => exact ⟨0, by simp⟩
    | succ k =>
      obtain ⟨m, hm⟩ := ih k
      by_cases hp : p a
      · exact ⟨m + 1, by simp [List.take_succ_cons, List.filter_cons, hp, hm]⟩
      · exact ⟨m, by simp [List.take_succ_cons, List.filter_cons, hp, hm]⟩

/-! ## Claims about the persistence queries and the routing -/

/-- Claim C8: for every shard state, symbol and limit `k`, the recent-logs
query returns at most `k` entries, in non-increasing timestamp order, with
ties broken by insertion order (entries of any fixed timestamp appear as a
prefix-of-`take` of the insertion-ordered filtered table), and returns the
empty sequence — not an error — when no entries exist for the symbol. -/
theorem recent_logs_query_spec (rows : List LogEntry) (coin : String) (k : Nat) :
    (quote_logs_query rows coin k).length ≤ k ∧
    List.Pairwise (fun a b => b.ts ≤ a.ts) (quote_logs_query rows coin k) ∧
    (∀ t, ∃ m, (quote_logs_query rows coin k).filter (fun e => e.ts = t) =
        ((rows.filter (fun e => e.coin = coin)).filter (fun e => e.ts = t)).take m) ∧
    (rows.filter (fun e => e.coin = coin) = [] → quote_logs_query rows coin k = []) := by
  refine ⟨List.length_take_le _ _,
    List.Pairwise.sublist (List.take_sublist _ _) (order_by_timestamp_desc_pairwise _), ?_, ?_⟩
  · intro t
    obtain ⟨m, hm⟩ := filter_take_exists (fun e => decide (e.ts = t))
      (order_by_timestamp_desc (rows.filter (fun e => e.coin = coin))) k
    refine ⟨m, ?_⟩
    unfold quote_logs_query
    rw [hm, order_by_timestamp_desc_filter_ts]
  · intro h
    unfold quote_logs_query
    rw [h]
    simp [order_by_timestamp_desc]

/-- Witness for C8 at a two-row table and at an empty table. -/
theorem recent_logs_query_spec_witness :
    (quote_logs_query [⟨"bitcoin", 100, 1⟩, ⟨"bitcoin", 200, 2⟩] "bitcoin" 1).length ≤ 1 ∧
    List.Pairwise (fun a b => b.ts ≤ a.ts)
      (quote_logs_query [⟨"bitcoin", 100, 1⟩, ⟨"bitcoin", 200, 2⟩] "bitcoin" 1) ∧
    quote_logs_query ([] : List LogEntry) "bitcoin" 1 = [] := by
  have h := recent_logs_query_spec [⟨"bitcoin", 100, 1⟩, ⟨"bitcoin", 200, 2⟩] "bitcoin" 1
  have h0 := recent_logs_query_spec ([] : List LogEntry) "bitcoin" 1
  exact ⟨h.1, h.2.1, h0.2.2.2 rfl⟩

theorem average_response_empty (db : List LogEntry) (coin : String)
    (h : db.filter (fun e => e.coin = str_lower coin) = []) :
    average_response db coin = .ok ⟨coin, 0, 0⟩ := by
  simp [average_response, quote_logs_query, h, order_by_timestamp_desc]

theorem average_response_small (db : List LogEntry) (coin : String)
    (hne : db.filter (fun e => e.coin = str_lower coin) ≠ [])
    (hlen : (db.filter (fun e => e.coin = str_lower coin)).length ≤ 10) :
    average_response db coin = .ok ⟨coin,
      ((db.filter (fun e => e.coin = str_lower coin)).map LogEntry.price).sum /
        (((db.filter (fun e => e.coin = str_lower coin)).length : Nat) : ℚ),
      (db.filter (fun e => e.coin = str_lower coin)).length⟩ := by
  have hperm := order_by_timestamp_desc_perm (db.filter (fun e => e.coin = str_lower coin))
  have htake : quote_logs_query db (str_lower coin) 10 =
      order_by_timestamp_desc (db.filter (fun e => e.coin = str_lower coin)) := by
    unfold quote_logs_query
    exact List.take_of_length_le (by rw [hperm.length_eq]; exact hlen)
  have hmp := hperm.map LogEntry.price
  have hne2 : ((quote_logs_query db (str_lower coin) 10).map LogEntry.price).isEmpty = false := by
    rw [htake]
    have hlen3 : ((order_by_timestamp_desc (db.filter (fun e => e.coin = str_lower coin))).map
        LogEntry.price).length =
        (db.filter (fun e => e.coin = str_lower coin)).length := by
      rw [List.length_map, hperm.length_eq]
    rcases hq : (order_by_timestamp_desc (db.filter (fun e => e.coin = str_lower coin))).map
        LogEntry.price with _ | ⟨a, l⟩
    · rw [hq] at hlen3
      exact absurd (List.length_eq_zero.mp hlen3.symm) hne
    · rfl
  simp only [average_response, hne2, Bool.false_eq_true, if_false, Except.ok.injEq]
  rw [htake]
  rw [hmp.sum_eq, hmp.length_eq]
  simp [List.length_map]

/-- Claim C7: for every shard state and known symbol, the average endpoint
returns `(0, 0)` — not an error — when no entries exist for that symbol, and
when `0 < n ≤ 10` entries exist it returns the arithmetic mean of the prices
of exactly those `n` entries together with count `n`. -/
theorem average_last_10_spec (s1 s2 : List LogEntry) (coin : String)
    (hk : str_lower coin = "bitcoin" ∨ str_lower coin = "ethereum") :
    ((if str_lower coin = "bitcoin" then s1 else s2).filter
        (fun e => e.coin = str_lower coin) = [] →
      get_average_last_10 s1 s2 coin = .ok ⟨coin, 0, 0⟩) ∧
    (∀ es, es = (if str_lower coin = "bitcoin" then s1 else s2).filter
        (fun e => e.coin = str_lower coin) →
      es ≠ [] → es.length ≤ 10 →
      get_average_last_10 s1 s2 coin =
        .ok ⟨coin, (es.map LogEntry.price).sum / ((es.length : Nat) : ℚ), es.length⟩) := by
  rcases hk with hb | he
  · rw [get_average_last_10, if_pos hb, if_pos hb]
    constructor
    · intro h
      exact average_response_empty s1 coin h
    · intro es hes hne hlen
      rw [hes] at hne hlen ⊢
      exact average_response_small s1 coin hne hlen
  · have hb : str_lower coin ≠ "bitcoin" := by rw [he]; decide
    rw [get_average_last_10, if_neg hb, if_pos he, if_neg hb]
    constructor
    · intro h
      exact average_response_empty s2 coin h
    · intro es hes hne hlen
      rw [hes] at hne hlen ⊢
      exact average_response_small s2 coin hne hlen

/-- Witness for C7: two bitcoin rows, average `(150, 2)` (the §8 scenario). -/
theorem average_last_10_spec_witness :
    get_average_last_10 [⟨"bitcoin", 100, 1⟩, ⟨"bitcoin", 200, 2⟩] [] "bitcoin" =
      .ok ⟨"bitcoin", 150, 2⟩ := by
  have h := (average_last_10_spec [⟨"bitcoin", 100, 1⟩, ⟨"bitcoin", 200, 2⟩] [] "bitcoin"
    (Or.inl rfl)).2 [⟨"bitcoin", 100, 1⟩, ⟨"bitcoin", 200, 2⟩] (by decide)
    (by decide) (by decide)
  rw [h]
  norm_num

/-- Claim C4 counterexample: `store_log` with a symbol outside the shard
assignment returns without raising and without any insert event — the
operation is silently dropped at this call site, not rejected with an error. -/
theorem store_log_unknown_silently_dropped :
    store_log "dogecoin" 1 ⟨false, false, false⟩ = [] ∧
    store_log_shard "dogecoin" = none :=
  ⟨rfl, rfl⟩

/-- Claim C4 (amended): routing is deterministic — `"bitcoin"` always resolves
to shard 1 and `"ethereum"` to shard 2 — and a symbol outside the shard
assignment is rejected with a 404 error by `get_average_last_10`; `store_log`,
however, silently drops the operation for unknown symbols (no error, no
insert). -/
theorem route_deterministic_unknown_rejected (coin : String) (price : ℚ)
    (f : CycleFailures) (s1 s2 : List LogEntry) :
    (store_log_shard "bitcoin" = some .shard1 ∧
     store_log_shard "ethereum" = some .shard2) ∧
    (coin ≠ "bitcoin" → coin ≠ "ethereum" →
      store_log_shard coin = none ∧ store_log coin price f = []) ∧
    (str_lower coin ≠ "bitcoin" → str_lower coin ≠ "ethereum" →
      get_average_last_10 s1 s2 coin = .error 404) := by
  refine ⟨⟨rfl, rfl⟩, ?_, ?_⟩
  · intro h1 h2
    have hs : store_log_shard coin = none := by
      unfold store_log_shard
      rw [if_neg h1, if_neg h2]
    refine ⟨hs, ?_⟩
    unfold store_log
    rw [hs]
  · intro h1 h2
    unfold get_average_last_10
    rw [if_neg h1, if_neg h2]

/-- Witness for amended C4 at the unknown symbol `"doge"`. -/
theorem route_deterministic_unknown_rejected_witness :
    store_log "doge" 1 ⟨false, false, false⟩ = [] ∧
    get_average_last_10 [] [] "doge" = .error 404 := by
  have h := route_deterministic_unknown_rejected "doge" 1 ⟨false, false, false⟩ [] []
  exact ⟨(h.2.1 (by decide) (by decide)).2, h.2.2 (by decide) (by decide)⟩

theorem average_response_ok (db : List LogEntry) (coin : String) :
    ∃ r, average_response db coin = .ok r ∧ r.coin = coin := by
  by_cases h : ((quote_logs_query db (str_lower coin) 10).map LogEntry.price).isEmpty = true
  · refine ⟨⟨coin, 0, 0⟩, ?_, rfl⟩
    simp only [average_response, h, if_true]
  · refine ⟨⟨coin,
      ((quote_logs_query db (str_lower coin) 10).map LogEntry.price).sum /
        ((((quote_logs_query db (str_lower coin) 10).map LogEntry.price).length : Nat) : ℚ),
      ((quote_logs_query db (str_lower coin) 10).map LogEntry.price).length⟩, ?_, rfl⟩
    simp only [average_response, h, Bool.false_eq_true, if_false]

/-- Claim C10: both direct-read endpoints lowercase the path parameter before
the cache lookup / shard routing — a mixed-case symbol succeeds exactly when
its lowercase form is known — while the response echoes the caller's original
casing in the `coin` field rather than the canonical lowercase key. -/
theorem endpoints_case_insensitive (cache : QuoteDict) (coin : String)
    (s1 s2 : List LogEntry) :
    (∀ p, dictLookup cache (str_lower coin) = some p →
      get_current_quote cache coin = .ok ⟨coin, p⟩) ∧
    (dictLookup cache (str_lower coin) = none →
      get_current_quote cache coin = .error 404) ∧
    (str_lower coin = "bitcoin" ∨ str_lower coin = "ethereum" →
      ∃ r, get_average_last_10 s1 s2 coin = .ok r ∧ r.coin = coin) ∧
    (str_lower coin ≠ "bitcoin" → str_lower coin ≠ "ethereum" →
      get_average_last_10 s1 s2 coin = .error 404) := by
  refine ⟨?_, ?_, ?_, ?_⟩
  · intro p hp
    unfold get_current_quote
    rw [hp]
  · intro hp
    unfold get_current_quote
    rw [hp]
  · intro hk
    rcases hk with hb | he
    · rw [get_average_last_10, if_pos hb]
      exact average_response_ok s1 coin
    · have hb : str_lower coin ≠ "bitcoin" := by rw [he]; decide
      rw [get_average_last_10, if_neg hb, if_pos he]
      exact average_response_ok s2 coin
  · intro h1 h2
    unfold get_average_last_10
    rw [if_neg h1, if_neg h2]

/-- Witness for C10 at the mixed-case symbols `"Bitcoin"` and `"DOGE"`. -/
theorem endpoints_case_insensitive_witness :
    get_current_quote last_known_quote_init "Bitcoin" = .ok ⟨"Bitcoin", 0⟩ ∧
    get_current_quote last_known_quote_init "DOGE" = .error 404 ∧
    (∃ r, get_average_last_10 [] [] "Bitcoin" = .ok r ∧ r.coin = "Bitcoin") := by
  refine ⟨?_, ?_, ?_⟩
  · exact (endpoints_case_insensitive last_known_quote_init "Bitcoin" [] []).1 0 (by decide)
  · exact (endpoints_case_insensitive last_known_quote_init "DOGE" [] []).2.1 (by decide)
  · exact (endpoints_case_insensitive last_known_quote_init "Bitcoin" [] []).2.2.1
      (Or.inl (by decide))

/-! ## Claims about the aggregator -/

theorem arr_map_ne_error_payload (rows : List LogEntry) (coin : String) :
    Json.arr (rows.map log_entry_to_json) ≠ logs_error_payload coin := by
  intro h
  cases rows with
  | nil => simp [logs_error_payload] at h
  | cons e rest =>
    cases rest with
    | nil => simp [logs_error_payload, log_entry_to_json] at h
    | cons f rest2 => simp [logs_error_payload] at h

theorem avg_field_correct (coin : String) (o : AvgCallOutcome)
    (h : ∀ v, o = .ok v → ∃ q, jsonObjLookup v "average_price" = some (.num q)) :
    AvgFieldCorrect o (get_avg (fetch_current_average_price coin o)) := by
  cases o with
  | ok v =>
    obtain ⟨q, hq⟩ := h v rfl
    cases v with
    | obj kvs =>
      have hfield : get_avg (fetch_current_average_price coin (.ok (.obj kvs))) = .num q := by
        simp [get_avg, fetch_current_average_price, hq]
      refine ⟨⟨q, hq, hfield⟩, ?_⟩
      rw [hfield]
      intro hm
      unfold IsAvgMarker at hm
      rcases hm with hm | hm <;> exact Json.noConfusion hm
    | num q2 => exact absurd hq (by simp [jsonObjLookup])
    | str s => exact absurd hq (by simp [jsonObjLookup])
    | arr xs => exact absurd hq (by simp [jsonObjLookup])
  | transportError =>
    unfold AvgFieldCorrect IsAvgMarker
    right
    simp [get_avg, fetch_current_average_price, avg_error_payload, jsonObjLookup,
      jsonFieldsLookup]
  | httpError =>
    unfold AvgFieldCorrect IsAvgMarker
    left
    rfl
  | malformedBody =>
    unfold AvgFieldCorrect IsAvgMarker
    left
    rfl

theorem log_field_correct (rows : List LogEntry) (coin : String) (o : LogCallOutcome) :
    LogFieldCorrect o rows coin (logs_field (fetch_last_logs_from_shard rows coin 5 o)) := by
  cases o with
  | querySucceeds =>
    refine ⟨rfl, ?_⟩
    intro hm
    unfold IsLogsMarker at hm
    rcases hm with hm | hm
    · exact Json.noConfusion hm
    · exact arr_map_ne_error_payload _ _ hm
  | dbError =>
    unfold LogFieldCorrect IsLogsMarker
    right
    rfl

/-- Claim C2: for every combination of sub-call outcomes (success, raised
exception captured by the gather, or in-call error payload), `get_full_report`
returns a report — the merge is a total function of the four gathered results,
so it never raises — whose four fields are each either the sub-call's
successful value or an explicit error marker: a successful price-summary call
(whose payload carries a numeric `average_price`) yields exactly that number
and no marker, a successful log query yields exactly the rendered query rows
and no marker, and a failing sub-call yields a marker in its own field only.
In particular, when exactly one sub-call fails, only that field carries the
marker and the other three hold their successful values. -/
theorem report_fields_value_or_marker (s1 s2 : List LogEntry)
    (o1 o2 : AvgCallOutcome) (o3 o4 : LogCallOutcome)
    (h1 : ∀ v, o1 = .ok v → ∃ q, jsonObjLookup v "average_price" = some (.num q))
    (h2 : ∀ v, o2 = .ok v → ∃ q, jsonObjLookup v "average_price" = some (.num q)) :
    AvgFieldCorrect o1 (get_full_report s1 s2 o1 o2 o3 o4).media_precos_bitcoin ∧
    AvgFieldCorrect o2 (get_full_report s1 s2 o1 o2 o3 o4).media_precos_ethereum ∧
    LogFieldCorrect o3 s1 "bitcoin"
      (get_full_report s1 s2 o1 o2 o3 o4).ultimos_logs_bitcoin ∧
    LogFieldCorrect o4 s2 "ethereum"
      (get_full_report s1 s2 o1 o2 o3 o4).ultimos_logs_ethereum :=
  ⟨avg_field_correct "bitcoin" o1 h1, avg_field_correct "ethereum" o2 h2,
   log_field_correct s1 "bitcoin" o3, log_field_correct s2 "ethereum" o4⟩

/-- Witness for C2: the bitcoin average succeeds, the ethereum average fails
with a transport error, the bitcoin log query succeeds, the ethereum log query
fails in the database — only the two failing fields carry markers. -/
theorem report_fields_value_or_marker_witness :
    AvgFieldCorrect
      (.ok (.obj [("coin", .str "bitcoin"), ("average_price", .num 150),
        ("log_count", .num 2)]))
      ((get_full_report [⟨"bitcoin", 100, 1⟩] []
        (.ok (.obj [("coin", .str "bitcoin"), ("average_price", .num 150),
          ("log_count", .num 2)]))
        .transportError .querySucceeds .dbError).media_precos_bitcoin) ∧
    AvgFieldCorrect .transportError
      ((get_full_report [⟨"bitcoin", 100, 1⟩] []
        (.ok (.obj [("coin", .str "bitcoin"), ("average_price", .num 150),
          ("log_count", .num 2)]))
        .transportError .querySucceeds .dbError).media_precos_ethereum) ∧
    LogFieldCorrect .querySucceeds [⟨"bitcoin", 100, 1⟩] "bitcoin"
      ((get_full_report [⟨"bitcoin", 100, 1⟩] []
        (.ok (.obj [("coin", .str "bitcoin"), ("average_price", .num 150),
          ("log_count", .num 2)]))
        .transportError .querySucceeds .dbError).ultimos_logs_bitcoin) ∧
    LogFieldCorrect .dbError [] "ethereum"
      ((get_full_report [⟨"bitcoin", 100, 1⟩] []
        (.ok (.obj [("coin", .str "bitcoin"), ("average_price", .num 150),
          ("log_count", .num 2)]))
        .transportError .querySucceeds .dbError).ultimos_logs_ethereum) :=
  report_fields_value_or_marker [⟨"bitcoin", 100, 1⟩] []
    (.ok (.obj [("coin", .str "bitcoin"), ("average_price", .num 150),
      ("log_count", .num 2)]))
    .transportError .querySucceeds .dbError
    (fun v hv => by cases hv; exact ⟨150, rfl⟩)
    (fun v hv => AvgCallOutcome.noConfusion hv)

end SistemaCotacao
